/-
Verification of the execution-trace validation and integrity engine of
nwave-copilot (the `des` package): the phase-event parser, the step
completion validator, the log integrity validator, the timestamp
corrector and the subagent-stop decision service.

Shallow embedding conventions:
  * Machine time is modelled in microseconds since the Unix epoch as `Int`
    (CPython's `datetime`/`timedelta` resolution).  A parsed datetime is a
    `PyDatetime`: its instant in microseconds plus an awareness flag, since
    `datetime.fromisoformat` yields naive values for offset-less strings
    and CPython raises `TypeError` on naive/aware comparisons.
  * `timedelta / int` uses CPython's round-half-to-even (`pyDivRound`).
  * `datetime.strftime("%Y-%m-%dT%H:%M:%SZ")` is `isoFormatSec`, using the
    proleptic Gregorian calendar; `datetime.fromisoformat` is
    `fromisoformat`, modelled on the extended-format ISO-8601 subset
    "YYYY-MM-DD[(T| )HH[:MM[:SS[.f{1..6}]]]][Z|z|+-HH[:MM]|+-HHMM]"
    (basic all-digit dates/times and offset seconds are out of scope; the
    engine neither generates nor documents them).
  * Collaborator responses (log reader, commit verifier, scope checker,
    audit sink, time provider) are inputs of the embedded service; the
    audit sink is modelled by returning the list of emitted events.
  * `difflib.get_close_matches` (stdlib, used only to decorate a warning
    string) is modelled as an arbitrary suggestion function passed in.
-/

import Mathlib

set_option maxRecDepth 10000

/-! ## Python arithmetic helpers -/

/-- CPython `_divide_and_round` (used by `timedelta / int`): floor-divide
and round the quotient half to even.  Only used with positive divisors. -/
def pyDivRound (a b : Int) : Int :=
  let q := a / b
  let r := a % b
  if 2 * r > b ∨ (2 * r = b ∧ q % 2 = 1) then q + 1 else q

/-! ## Proleptic Gregorian calendar (CPython `datetime` semantics) -/

/-- Civil date of a day count since 1970-01-01 (proleptic Gregorian),
by decomposing the day-of-era into century, quadrennium and
year-in-quadrennium (cross-checked against CPython `datetime` on every
day of the years 1000–9999). -/
def civilFromDays (z : Int) : Int × Int × Int :=
  let zs := z + 719468
  let era := zs / 146097
  let doe := zs - era * 146097
  let c := (4 * doe + 3) / 146097
  let r := doe - c * 36524
  let q := r / 1461
  let r2 := r - q * 1461
  let yq := (r2 - r2 / 1460) / 365
  let yoe := 100 * c + 4 * q + yq
  let doy := r2 - 365 * yq
  let mp := (5 * doy + 2) / 153
  let d := doy - (153 * mp + 2) / 5 + 1
  let m := mp + (if mp < 10 then 3 else -9)
  (if m ≤ 2 then yoe + era * 400 + 1 else yoe + era * 400, m, d)

/-- Day count since 1970-01-01 of a civil date (proleptic Gregorian). -/
def daysFromCivil (y m d : Int) : Int :=
  let ys := if m ≤ 2 then y - 1 else y
  let era := ys / 400
  let yoe := ys - era * 400
  let mp := (m + 9) % 12
  let doy := (153 * mp + 2) / 5 + d - 1
  let doe := yoe * 365 + yoe / 4 - yoe / 100 + doy
  era * 146097 + doe - 719468

/-- Gregorian leap year. -/
def isLeap (y : Int) : Bool :=
  (y % 4 = 0 ∧ y % 100 ≠ 0) ∨ y % 400 = 0

/-- Days in a month (`calendar` semantics, used by `datetime` validation). -/
def daysInMonth (y m : Int) : Int :=
  if m = 2 then (if isLeap y then 29 else 28)
  else if m = 4 ∨ m = 6 ∨ m = 9 ∨ m = 11 then 30
  else 31

/-! ## Second-precision ISO-8601 rendering (`strftime("%Y-%m-%dT%H:%M:%SZ")`) -/

/-- The decimal digit character of `n % 10`. -/
def digitChar10 (n : Nat) : Char := Char.ofNat (48 + n % 10)

/-- Zero-padded 2-digit rendering. -/
def render2 (n : Nat) : List Char := [digitChar10 (n / 10), digitChar10 n]

/-- Zero-padded 4-digit rendering. -/
def render4 (n : Nat) : List Char :=
  [digitChar10 (n / 1000), digitChar10 (n / 100), digitChar10 (n / 10), digitChar10 n]

/-- `strftime("%Y-%m-%dT%H:%M:%SZ")` of a UTC time in microseconds:
truncates to whole seconds (sub-second part dropped by the format). -/
def isoFormatSec (t : Int) : String :=
  let s := t / 1000000
  let days := s / 86400
  let sod := s % 86400
  let c := civilFromDays days
  String.mk (render4 c.1.toNat ++ ('-' :: (render2 c.2.1.toNat ++ ('-' :: (render2 c.2.2.toNat
    ++ ('T' :: (render2 (sod / 3600).toNat ++ (':' :: (render2 (sod % 3600 / 60).toNat
    ++ (':' :: (render2 (sod % 60).toNat ++ ['Z'])))))))))))

/-! ## `datetime.fromisoformat`, restricted to the trace formats -/

/-- Digit value of a decimal digit character. -/
def digitVal (c : Char) : Option Int :=
  if c.isDigit then some ((c.toNat : Int) - 48) else none

/-- Two decimal digits. -/
def take2 : List Char → Option (Int × List Char)
  | a :: b :: rest => do
      let x ← digitVal a
      let y ← digitVal b
      pure (10 * x + y, rest)
  | _ => none

/-- Four decimal digits. -/
def take4 : List Char → Option (Int × List Char)
  | a :: b :: c :: d :: rest => do
      let x ← digitVal a
      let y ← digitVal b
      let z ← digitVal c
      let w ← digitVal d
      pure (1000 * x + 100 * y + 10 * z + w, rest)
  | _ => none

/-- Up to six fractional-second digits after the dot, as microseconds. -/
def takeFrac (acc : Int) (scale : Nat) : List Char → Option (Int × List Char)
  | [] => if scale < 6 then some (acc * Int.ofNat (10 ^ (6 - scale)), []) else none
  | c :: rest =>
      match digitVal c with
      | some v =>
          if scale < 6 then takeFrac (acc * 10 + v) (scale + 1) rest else none
      | none =>
          if 0 < scale ∧ scale ≤ 6 then some (acc * Int.ofNat (10 ^ (6 - scale)), c :: rest)
          else none

/-- UTC offset designator: "Z"/"z", "±HH", "±HH:MM" or "±HHMM", as signed
microseconds.  Consumes the whole remaining input. -/
def takeOffset : List Char → Option Int
  | sgn :: rest =>
      if sgn = '+' ∨ sgn = '-' then do
        let (oh, rest1) ← take2 rest
        match rest1 with
        | [] =>
            if oh ≤ 23 then
              let mag := oh * 3600 * 1000000
              pure (if sgn = '-' then -mag else mag)
            else none
        | ':' :: rest2 => do
            let (om, rest3) ← take2 rest2
            if rest3 = [] ∧ oh ≤ 23 ∧ om ≤ 59 then
              let mag := (oh * 3600 + om * 60) * 1000000
              pure (if sgn = '-' then -mag else mag)
            else none
        | _ => do
            let (om, rest3) ← take2 rest1
            if rest3 = [] ∧ oh ≤ 23 ∧ om ≤ 59 then
              let mag := (oh * 3600 + om * 60) * 1000000
              pure (if sgn = '-' then -mag else mag)
            else none
      else if (sgn = 'Z' ∨ sgn = 'z') ∧ rest = [] then some 0
      else none
  | [] => none

/-- The time-of-day part "HH[:MM[:SS[.frac]]][offset]" of an ISO string:
microseconds within the day, and the offset when one is present (its
absence makes the datetime naive). -/
def timePart (l : List Char) : Option (Int × Option Int) := do
  let (h, r1) ← take2 l
  let (sub, rest) ←
    match r1 with
    | ':' :: r2 => do
        let (mi, r3) ← take2 r2
        match r3 with
        | ':' :: r4 => do
            let (s, r5) ← take2 r4
            match r5 with
            | '.' :: r6 => do
                let (frac, r7) ← takeFrac 0 0 r6
                if mi ≤ 59 ∧ s ≤ 59 then
                  pure (60000000 * mi + 1000000 * s + frac, r7)
                else none
            | _ =>
                if mi ≤ 59 ∧ s ≤ 59 then
                  pure (60000000 * mi + 1000000 * s, r5)
                else none
        | _ => if mi ≤ 59 then pure (60000000 * mi, r3) else none
    | _ => pure ((0 : Int), r1)
  if h ≤ 23 then
    match rest with
    | [] => pure (3600000000 * h + sub, none)
    | r => do
        let off ← takeOffset r
        pure (3600000000 * h + sub, some off)
  else none

/-- A parsed `datetime`: the instant in microseconds since the epoch
(naive values read at face value), and whether it carries a timezone. -/
structure PyDatetime where
  us : Int
  aware : Bool
deriving DecidableEq, Repr

/-- Equality of `Except` results is decidable (for concrete evaluation). -/
instance exceptDecEq {e a : Type} [DecidableEq e] [DecidableEq a] :
    DecidableEq (Except e a) := fun x y => by
  cases x with
  | error u =>
    cases y with
    | error v => exact decidable_of_iff (u = v) (by simp)
    | ok w => exact Decidable.isFalse (by simp)
  | ok u =>
    cases y with
    | error v => exact Decidable.isFalse (by simp)
    | ok w => exact decidable_of_iff (u = w) (by simp)

/-- `datetime.fromisoformat` on
"YYYY-MM-DD[(T| )HH[:MM[:SS[.frac]]]][offset]": a date-only or
offset-less string parses naive; an offset makes it aware (the instant
has the offset subtracted).  Anything else is `none` (`ValueError`). -/
def fromisoformatChars (l : List Char) : Option PyDatetime := do
  let (y, r1) ← take4 l
  match r1 with
  | '-' :: r2 => do
    let (mo, r3) ← take2 r2
    match r3 with
    | '-' :: r4 => do
      let (d, r5) ← take2 r4
      if 1 ≤ y ∧ 1 ≤ mo ∧ mo ≤ 12 ∧ 1 ≤ d ∧ d ≤ daysInMonth y mo then
        match r5 with
        | [] => pure ⟨86400000000 * daysFromCivil y mo d, false⟩
        | sep :: r6 =>
          if sep = 'T' ∨ sep = ' ' then do
            let (tus, off) ← timePart r6
            match off with
            | none => pure ⟨86400000000 * daysFromCivil y mo d + tus, false⟩
            | some o => pure ⟨86400000000 * daysFromCivil y mo d + tus - o, true⟩
          else none
      else none
    | _ => none
  | _ => none

/-- `datetime.fromisoformat` on a string (see `fromisoformatChars`). -/
def fromisoformat (s : String) : Option PyDatetime := fromisoformatChars s.data

/-- The instant of a parsed timestamp, naive values taken as UTC.  This is
exactly the corrector's reading (it applies `replace(tzinfo=utc)` to a
naive start); the warn-only validator embeddings below also use it,
approximating the uncaught naive/aware-comparison `TypeError` the source
can raise there, which `checkTsRun` models exactly. -/
def fromiso (s : String) : Option Int := (fromisoformat s).map (fun d => d.us)

example : daysFromCivil 1970 1 1 = 0 := by decide
example : civilFromDays 0 = (1970, 1, 1) := by decide
example : daysFromCivil 2000 2 29 = 11016 := by decide
example : civilFromDays 11016 = (2000, 2, 29) := by decide
example : fromiso "1970-01-01T00:00:00Z" = some 0 := by decide
example : fromiso "1970-01-01T00:00:01.5Z" = some 1500000 := by decide
example : fromiso "1970-01-01T01:00:00+01:00" = some 0 := by decide
example : fromiso "2026-02-30T10:00:00Z" = none := by decide
example : fromisoformat "2026-02-02T10:00:00" = some ⟨1770026400000000, false⟩ := by
  decide
example : fromisoformat "2030-01-01T00:00+00:00" = some ⟨1893456000000000, true⟩ := by
  decide
example : fromisoformat "1970-01-02" = some ⟨86400000000, false⟩ := by decide
example : fromisoformat "1970-01-01T01-0130" = some ⟨9000000000, true⟩ := by decide
example : fromisoformat "1970-01-01 00:00:30z" = some ⟨30000000, true⟩ := by decide
example : fromisoformat "1970-01-01T00:61" = none := by decide
example : isoFormatSec 0 = "1970-01-01T00:00:00Z" := by decide
example : isoFormatSec 1999999 = "1970-01-01T00:00:01Z" := by decide

/-! ## Python `str` helpers -/

/-- Python `int(s)`: optional surrounding whitespace, optional sign,
then decimal digits. -/
def pyInt (s : String) : Option Int :=
  let core := (s.data.dropWhile (·.isWhitespace)).reverse.dropWhile (·.isWhitespace)
    |>.reverse
  let digits : List Char → Option Int := fun ds =>
    if ds ≠ [] ∧ ds.all (·.isDigit) then
      some (ds.foldl (fun acc c => acc * 10 + ((c.toNat : Int) - 48)) 0)
    else none
  match core with
  | '+' :: ds => digits ds
  | '-' :: ds => (digits ds).map (- ·)
  | ds => digits ds

/-- Python `pat in s` (substring occurrence; the empty pattern occurs). -/
def hasSubstring : List Char → List Char → Bool
  | _, [] => true
  | [], _ :: _ => false
  | c :: rest, p :: ps => (p :: ps).isPrefixOf (c :: rest) || hasSubstring rest (p :: ps)

/-- Python `s.find`-style replacement core: replace every non-overlapping
occurrence of `pat` left to right (`pat` non-empty). -/
def replaceAux (pat rep : List Char) : List Char → List Char
  | [] => []
  | c :: rest =>
    if pat.isPrefixOf (c :: rest) then
      rep ++ replaceAux pat rep (List.drop (pat.length - 1) rest)
    else c :: replaceAux pat rep rest
termination_by l => l.length
decreasing_by
  all_goals simp only [List.length_drop, List.length_cons]
  all_goals omega

/-- Python `s.replace(pat, rep)` for non-empty `pat` (the corrector only
replaces timestamp substrings, which are never empty). -/
def pyReplace (s pat rep : String) : String :=
  if pat.data = [] then s else String.mk (replaceAux pat.data rep.data s.data)

/-- Python `pat in s`. -/
def pyContains (s pat : String) : Bool := hasSubstring s.data pat.data

/-! ## Event model and parser (`des/domain/phase_event.py`) -/

/-- Immutable representation of a single TDD phase execution event. -/
structure PhaseEvent where
  step_id : String
  phase_name : String
  status : String
  outcome : String
  timestamp : String
  turns_used : Option Int := none
  tokens_used : Option Int := none
deriving DecidableEq, Repr

/-- A v3.0 structured mapping entry: required short keys {sid, p, s, d, t}
modelled as optional fields (`none` = key absent), optional {tu, tk}. -/
structure StructuredEntry where
  sid : Option String := none
  p : Option String := none
  s : Option String := none
  d : Option String := none
  t : Option String := none
  tu : Option Int := none
  tk : Option Int := none
deriving DecidableEq, Repr

/-- A raw trace entry: a pipe-delimited string, a structured mapping, or
any other YAML value (which the parser rejects). -/
inductive RawEntry where
  | strE (s : String)
  | dictE (e : StructuredEntry)
  | otherE
deriving DecidableEq, Repr

/-- `PhaseEventParser.parse`: pipe-delimited v2.0 entry; fewer than 5
fields parse to nothing; a 7-field entry tries to read integer stats, and
Python assigns `turns_used` before `int(parts[6])` can raise. -/
def PhaseEventParser.parse (event_str : String) : Option PhaseEvent :=
  let parts := event_str.splitOn "|"
  if parts.length < 5 then none
  else
    let stats : Option Int × Option Int :=
      if parts.length ≥ 7 then
        match pyInt (parts.getD 5 "") with
        | none => (none, none)
        | some tu =>
          match pyInt (parts.getD 6 "") with
          | none => (some tu, none)
          | some tk => (some tu, some tk)
      else (none, none)
    some { step_id := parts.getD 0 "", phase_name := parts.getD 1 "",
           status := parts.getD 2 "", outcome := parts.getD 3 "",
           timestamp := parts.getD 4 "",
           turns_used := stats.1, tokens_used := stats.2 }

/-- `PhaseEventParser.parse_structured`: v3.0 mapping entry; missing any
required key parses to nothing. -/
def PhaseEventParser.parse_structured (e : StructuredEntry) : Option PhaseEvent :=
  match e.sid, e.p, e.s, e.d, e.t with
  | some sid, some p, some st, some d, some t =>
      some { step_id := sid, phase_name := p, status := st, outcome := d,
             timestamp := t, turns_used := e.tu, tokens_used := e.tk }
  | _, _, _, _, _ => none

/-- `PhaseEventParser.parse_auto`: dispatch on the entry's value type. -/
def PhaseEventParser.parse_auto : RawEntry → Option PhaseEvent
  | .strE s => PhaseEventParser.parse s
  | .dictE e => PhaseEventParser.parse_structured e
  | .otherE => none

/-- `PhaseEventParser.parse_many`: parse a batch, dropping entries that
parse to nothing and keeping only the given step's events. -/
def PhaseEventParser.parse_many (entries : List RawEntry) (step_id : String) :
    List PhaseEvent :=
  entries.filterMap (fun en =>
    match PhaseEventParser.parse_auto en with
    | some ev => if ev.step_id = step_id then some ev else none
    | none => none)

/-- `PhaseEventParser.parse_all`: parse a batch, dropping entries that
parse to nothing. -/
def PhaseEventParser.parse_all (entries : List RawEntry) : List PhaseEvent :=
  entries.filterMap PhaseEventParser.parse_auto

/-! ## TDD schema (`des/domain/tdd_schema.py`, immutable data container) -/

/-- Immutable container for TDD schema data (four views the validators
consult; loading/caching is file I/O outside the engine). -/
structure TDDSchema where
  tdd_phases : List String := []
  valid_statuses : List String := []
  valid_skip_prefixes : List String := []
  blocking_skip_prefixes : List String := []
  terminal_phases : List String := []
deriving DecidableEq, Repr

/-! ## Step completion validator (`des/domain/step_completion_validator.py`) -/

/-- Result of step completion validation. -/
structure CompletionResult where
  is_valid : Bool
  missing_phases : List String := []
  incomplete_phases : List String := []
  invalid_skips : List String := []
  error_messages : List String := []
  recovery_suggestions : List String := []
  error_type : Option String := none
deriving DecidableEq, Repr

/-- The four accumulating lists the Python loop mutates in place. -/
structure PhaseAcc where
  missing_phases : List String := []
  incomplete_phases : List String := []
  invalid_skips : List String := []
  error_messages : List String := []
deriving DecidableEq, Repr

/-- The Python dict built with "last event per phase wins": iterate the
events in trace order, each event overwriting its phase's slot; looking a
phase up yields the last event carrying that phase name. -/
def lastEventFor (events : List PhaseEvent) (phase : String) : Option PhaseEvent :=
  events.foldl (fun acc e => if e.phase_name = phase then some e else acc) none

/-- `StepCompletionValidator._validate_executed_phase`. -/
def StepCompletionValidator.validate_executed_phase (schema : TDDSchema)
    (phase outcome : String) (acc : PhaseAcc) : PhaseAcc :=
  if ¬ (outcome = "PASS" ∨ outcome = "FAIL") then
    { acc with
      incomplete_phases := acc.incomplete_phases ++ [phase]
      error_messages := acc.error_messages
        ++ [phase ++ ": Invalid outcome '" ++ outcome ++ "' (must be PASS or FAIL)"] }
  else if phase ∈ schema.terminal_phases ∧ outcome ≠ "PASS" then
    { acc with
      incomplete_phases := acc.incomplete_phases ++ [phase]
      error_messages := acc.error_messages
        ++ [phase ++ ": Terminal phase must have outcome PASS (not FAIL)"] }
  else acc

/-- `StepCompletionValidator._validate_skipped_phase`. -/
def StepCompletionValidator.validate_skipped_phase (schema : TDDSchema)
    (phase outcome : String) (acc : PhaseAcc) : PhaseAcc :=
  let valid_prefix_found := schema.valid_skip_prefixes.any (fun pre => outcome.startsWith pre)
  let acc1 :=
    if ¬ valid_prefix_found then
      { acc with
        invalid_skips := acc.invalid_skips ++ [phase]
        error_messages := acc.error_messages
          ++ [phase ++ ": Invalid skip reason '" ++ outcome ++ "' (must start with: "
              ++ String.intercalate ", " schema.valid_skip_prefixes ++ ")"] }
    else acc
  let blocking_prefix_found := schema.blocking_skip_prefixes.any (fun pre => outcome.startsWith pre)
  if blocking_prefix_found then
    { acc1 with
      invalid_skips := acc1.invalid_skips ++ [phase]
      error_messages := acc1.error_messages
        ++ [phase ++ ": Skip reason '" ++ outcome ++ "' blocks commit (DEFERRED not allowed)"] }
  else acc1

/-- `StepCompletionValidator._validate_phase_event`: EXECUTED and SKIPPED
events are checked; any other status only errors when it is not among the
schema's valid statuses. -/
def StepCompletionValidator.validate_phase_event (schema : TDDSchema)
    (phase : String) (event : PhaseEvent) (acc : PhaseAcc) : PhaseAcc :=
  if event.status = "EXECUTED" then
    StepCompletionValidator.validate_executed_phase schema phase event.outcome acc
  else if event.status = "SKIPPED" then
    StepCompletionValidator.validate_skipped_phase schema phase event.outcome acc
  else if event.status ∉ schema.valid_statuses then
    { acc with error_messages := acc.error_messages
        ++ [phase ++ ": Invalid status '" ++ event.status ++ "' (must be: "
            ++ String.intercalate ", " schema.valid_statuses ++ ")"] }
  else acc

/-- `StepCompletionValidator._classify_error_type`. -/
def StepCompletionValidator.classify_error_type
    (missing incomplete invalid : List String) : String :=
  if missing ≠ [] ∧ incomplete = [] ∧ invalid = [] then "ABANDONED_PHASE"
  else if incomplete ≠ [] ∧ missing = [] ∧ invalid = [] then "INCOMPLETE_PHASE"
  else if invalid ≠ [] ∧ missing = [] ∧ incomplete = [] then "INVALID_SKIP"
  else "MULTIPLE_ERRORS"

/-- `StepCompletionValidator.validate`: the step-completion state-machine
check over the step's (pre-filtered) events. -/
def StepCompletionValidator.validate (schema : TDDSchema) (events : List PhaseEvent) :
    CompletionResult :=
  if events = [] then
    let all_phases := String.intercalate ", " schema.tdd_phases
    { is_valid := false,
      missing_phases := schema.tdd_phases,
      error_type := some "SILENT_COMPLETION",
      error_messages := ["Agent completed without updating step file",
        "Missing phases: " ++ all_phases],
      recovery_suggestions := ["Check agent transcript for errors that prevented execution",
        "Verify agent received correct step context and instructions",
        "Resume execution to complete missing phases: " ++ all_phases] }
  else
    let acc := schema.tdd_phases.foldl (fun acc phase =>
      match lastEventFor events phase with
      | none => { acc with missing_phases := acc.missing_phases ++ [phase] }
      | some ev => StepCompletionValidator.validate_phase_event schema phase ev acc)
      ({} : PhaseAcc)
    let error_messages := acc.error_messages
      ++ (if acc.missing_phases ≠ [] then
            ["Missing phases: " ++ String.intercalate ", " acc.missing_phases] else [])
    let recovery_suggestions :=
      (if acc.missing_phases ≠ [] then
        ["Resume execution to complete missing phases: "
            ++ String.intercalate ", " acc.missing_phases,
         "Format: step_id|phase|status|data|timestamp"] else [])
      ++ (if acc.incomplete_phases ≠ [] ∨ acc.invalid_skips ≠ [] ∨ error_messages ≠ [] then
        ["Fix invalid phase entries in execution-log.yaml",
         "Ensure EXECUTED phases have PASS/FAIL outcome",
         "Ensure SKIPPED phases have valid reason prefix"] else [])
    let validation_failed := acc.missing_phases ≠ [] ∨ acc.incomplete_phases ≠ []
      ∨ acc.invalid_skips ≠ [] ∨ error_messages ≠ []
    if ¬ validation_failed then { is_valid := true }
    else
      { is_valid := false,
        missing_phases := acc.missing_phases,
        incomplete_phases := acc.incomplete_phases,
        invalid_skips := acc.invalid_skips,
        error_messages := error_messages,
        recovery_suggestions := recovery_suggestions,
        error_type := some (StepCompletionValidator.classify_error_type
          acc.missing_phases acc.incomplete_phases acc.invalid_skips) }

/-! ## Log integrity validator (`des/domain/log_integrity_validator.py`) -/

/-- An entry with a fabricated timestamp that can be corrected. -/
structure CorrectableEntry where
  index : Nat
  step_id : String
  phase_name : String
  original_timestamp : String
  reason : String
deriving DecidableEq, Repr

/-- Result of log integrity validation: warnings only, never blocks. -/
structure IntegrityResult where
  warnings : List String := []
  correctable_entries : List CorrectableEntry := []
deriving DecidableEq, Repr

/-- `LogIntegrityValidator._check_phase_names`.  `suggest` stands for
`difflib.get_close_matches` (stdlib fuzzy matching, not part of the
engine): `none` models an empty match list. -/
def LogIntegrityValidator.check_phase_names
    (suggest : String → List String → Option String)
    (valid_phases : List String) (step_id : String)
    (all_events : List PhaseEvent) : List String :=
  all_events.foldl (fun ws ev =>
    if ev.step_id ≠ step_id then ws
    else if ev.phase_name ∉ valid_phases then
      ws ++ ["Unrecognized phase name '" ++ ev.phase_name ++ "'"
        ++ (match suggest ev.phase_name valid_phases with
            | some m => " (did you mean '" ++ m ++ "'?)"
            | none => "")]
    else ws) []

/-- `LogIntegrityValidator._check_foreign_step_ids`. -/
def LogIntegrityValidator.check_foreign_step_ids (step_id : String)
    (all_events : List PhaseEvent) (task_start_time : Option String) : List String :=
  match task_start_time with
  | none => []
  | some ts =>
    match fromiso ts with
    | none => []
    | some start_dt =>
      let foreign := all_events.foldl (fun acc ev =>
        if ev.step_id = step_id then acc
        else match fromiso ev.timestamp with
          | none => acc
          | some event_dt =>
            if event_dt ≥ start_dt ∧ ev.step_id ∉ acc then acc ++ [ev.step_id] else acc) []
      (foreign.mergeSort (fun a b => a ≤ b)).map (fun fid =>
        "Foreign step_id '" ++ fid ++ "' has events written during task window")

/-- `LogIntegrityValidator._check_timestamps`, one event: future
timestamps (after `now`) and pre-task timestamps; within the 60-second
tolerance the event is warned but not correctable.  Total approximation:
parsed values are compared through `fromiso` (naive read as UTC); the
uncaught `TypeError` the source raises when a naive value meets the aware
`now`/start is modelled exactly by `checkTsRun` below. -/
def LogIntegrityValidator.check_timestamps_step (step_id : String)
    (start_dt : Option Int) (now : Int)
    (st : List String × List CorrectableEntry) (p : Nat × PhaseEvent) :
    List String × List CorrectableEntry :=
  let idx := p.1
  let ev := p.2
  if ev.step_id ≠ step_id then st
  else match fromiso ev.timestamp with
    | none => st
    | some event_dt =>
      if event_dt > now then
        (st.1 ++ ["Future timestamp on " ++ ev.phase_name ++ ": " ++ ev.timestamp],
         st.2 ++ [{ index := idx, step_id := ev.step_id, phase_name := ev.phase_name,
                    original_timestamp := ev.timestamp, reason := "future" }])
      else if start_dt.any (fun sd => decide (event_dt < sd - 60000000)) then
        (st.1 ++ ["Pre-task timestamp on " ++ ev.phase_name ++ ": " ++ ev.timestamp],
         st.2 ++ [{ index := idx, step_id := ev.step_id, phase_name := ev.phase_name,
                    original_timestamp := ev.timestamp, reason := "pre_task" }])
      else if start_dt.any (fun sd => decide (event_dt < sd)) then
        (st.1 ++ ["Pre-task timestamp on " ++ ev.phase_name ++ ": " ++ ev.timestamp], st.2)
      else st

def LogIntegrityValidator.check_timestamps (step_id : String)
    (all_events : List PhaseEvent) (task_start_time : Option String) (now : Int) :
    List String × List CorrectableEntry :=
  let start_dt : Option Int := task_start_time.bind fromiso
  (all_events.enum).foldl
    (LogIntegrityValidator.check_timestamps_step step_id start_dt now) ([], [])

/-- `LogIntegrityValidator._check_timestamps`, exact run model: the loop
over all events with CPython's comparison semantics.  A naive parsed
event meets the aware `now` in `event_dt > now` and raises `TypeError`;
an aware event at or before `now` meets a naive parsed start in
`event_dt < start_dt - _TOLERANCE` and raises too.  The `try` in the
source wraps only `fromisoformat`, so the exception aborts the whole
validation (modelled as `Except.error`). -/
def checkTsRun (step_id : String) (start_dt : Option PyDatetime) (now : Int) :
    Nat → List PhaseEvent → Except String (List String × List CorrectableEntry)
  | _, [] => .ok ([], [])
  | idx, ev :: rest =>
    if ev.step_id ≠ step_id then checkTsRun step_id start_dt now (idx + 1) rest
    else match fromisoformat ev.timestamp with
      | none => checkTsRun step_id start_dt now (idx + 1) rest
      | some event_dt =>
        if event_dt.aware = false then
          Except.error "TypeError: cannot compare offset-naive and offset-aware datetimes"
        else if event_dt.us > now then
          (checkTsRun step_id start_dt now (idx + 1) rest).map (fun p =>
            (("Future timestamp on " ++ ev.phase_name ++ ": " ++ ev.timestamp) :: p.1,
             { index := idx, step_id := ev.step_id, phase_name := ev.phase_name,
               original_timestamp := ev.timestamp, reason := "future" } :: p.2))
        else match start_dt with
          | some sd =>
            if sd.aware = false then
              Except.error "TypeError: cannot compare offset-naive and offset-aware datetimes"
            else if event_dt.us < sd.us - 60000000 then
              (checkTsRun step_id start_dt now (idx + 1) rest).map (fun p =>
                (("Pre-task timestamp on " ++ ev.phase_name ++ ": " ++ ev.timestamp) :: p.1,
                 { index := idx, step_id := ev.step_id, phase_name := ev.phase_name,
                   original_timestamp := ev.timestamp, reason := "pre_task" } :: p.2))
            else if event_dt.us < sd.us then
              (checkTsRun step_id start_dt now (idx + 1) rest).map (fun p =>
                (("Pre-task timestamp on " ++ ev.phase_name ++ ": " ++ ev.timestamp) :: p.1,
                 p.2))
            else checkTsRun step_id start_dt now (idx + 1) rest
          | none => checkTsRun step_id start_dt now (idx + 1) rest

/-- `LogIntegrityValidator._check_timestamps`, exact model: either the
raised `TypeError` or the (warnings, correctable entries) pair. -/
def LogIntegrityValidator.check_timestamps_run (step_id : String)
    (all_events : List PhaseEvent) (task_start_time : Option String) (now : Int) :
    Except String (List String × List CorrectableEntry) :=
  checkTsRun step_id (task_start_time.bind fromisoformat) now 0 all_events

/-- `LogIntegrityValidator.validate`: the three checks concatenated. -/
def LogIntegrityValidator.validate
    (suggest : String → List String → Option String) (schema : TDDSchema)
    (step_id : String) (all_events : List PhaseEvent)
    (task_start_time : Option String) (now : Int) : IntegrityResult :=
  let w1 := LogIntegrityValidator.check_phase_names suggest schema.tdd_phases step_id all_events
  let w2 := LogIntegrityValidator.check_foreign_step_ids step_id all_events task_start_time
  let tc := LogIntegrityValidator.check_timestamps step_id all_events task_start_time now
  { warnings := w1 ++ w2 ++ tc.1, correctable_entries := tc.2 }

/-! ## Audit events (`des/ports/driven_ports/audit_log_writer.py`) -/

/-- The event-specific `data` dict: the fields this engine ever writes,
each optional (absent keys are `none`/`false`/`[]`). -/
structure AuditData where
  validation_errors : List String := []
  allowed_despite_failure : Bool := false
  warning : Option String := none
  phase : Option String := none
  original_timestamp : Option String := none
  corrected_timestamp : Option String := none
  reason : Option String := none
  out_of_scope_file : Option String := none
  error_reason : Option String := none
  commit_hash : Option String := none
  commit_date : Option String := none
  commit_subject : Option String := none
  turns_used : Option Int := none
  tokens_used : Option Int := none
deriving DecidableEq, Repr

/-- A single audit event for the compliance trail (audit timestamps are
rendered at second precision in this model; no claim examines them). -/
structure AuditEvent where
  event_type : String
  timestamp : String
  feature_name : Option String := none
  step_id : Option String := none
  hook_id : Option String := none
  data : AuditData := {}
deriving DecidableEq, Repr

/-! ## Hook decision and contexts (`des/ports/driver_ports`) -/

/-- Decision result from a hook validation. -/
structure HookDecision where
  action : String
  reason : Option String := none
  exit_code : Int := 0
  recovery_suggestions : List String := []
deriving DecidableEq, Repr

/-- `HookDecision.allow()`. -/
def HookDecision.allow : HookDecision := { action := "allow", exit_code := 0 }

/-- `HookDecision.block(reason, recovery_suggestions)`. -/
def HookDecision.block (reason : String) (recovery_suggestions : List String := []) :
    HookDecision :=
  { action := "block", reason := some reason, exit_code := 2,
    recovery_suggestions := recovery_suggestions }

/-- Input context for subagent-stop validation (`""` means absent for
`cwd` and `task_start_time`, as in the source's truthiness checks). -/
structure SubagentStopContext where
  execution_log_path : String := ""
  project_id : String
  step_id : String
  stop_hook_active : Bool := false
  cwd : String := ""
  task_start_time : String := ""
  turns_used : Option Int := none
  tokens_used : Option Int := none
deriving DecidableEq, Repr

/-! ## Timestamp corrector (`SubagentStopService._correct_timestamps`) -/

/-- The corrector's time-window start: `task_start_time` when present and
parseable - a naive parse is taken as UTC, as the source applies
`replace(tzinfo=timezone.utc)` to it - else `now`. -/
def correctStart (task_start_time : String) (now : Int) : Int :=
  if task_start_time ≠ "" then
    match fromiso task_start_time with
    | some s => s
    | none => now
  else now

/-- The interpolated timestamps: one entry at the midpoint of the window,
N entries evenly spaced at `start + k·(now−start)/(N+1)`, `k = 1..N`
(`timedelta` division rounds half to even at microsecond resolution). -/
def interpolatedTimestamps (start now : Int) (n : Nat) : List Int :=
  if n = 1 then [start + pyDivRound (now - start) 2]
  else (List.range n).map (fun i =>
    start + pyDivRound (now - start) (Int.ofNat n + 1) * (Int.ofNat i + 1))

/-- `SubagentStopService._correct_timestamps` after the raw YAML read:
walk the correctable entries with their interpolated timestamps, rewrite
a raw entry only when it is a *string* that still contains the original
timestamp, and emit one corrected audit record per rewritten entry.
Returns (corrected raw events, audit events, corrected indices). -/
def correctTimestamps (ctx : SubagentStopContext) (now : Int)
    (correctable : List CorrectableEntry) (raw_events : List RawEntry) :
    List RawEntry × List AuditEvent × List Nat :=
  let start := correctStart ctx.task_start_time now
  let interpolated := interpolatedTimestamps start now correctable.length
  (List.zip correctable interpolated).foldl (fun st p =>
    let entry := p.1
    let new_ts := p.2
    if entry.index < st.1.length then
      match st.1.getD entry.index RawEntry.otherE with
      | RawEntry.strE old_event_str =>
        if pyContains old_event_str entry.original_timestamp then
          let new_ts_str := isoFormatSec new_ts
          (st.1.set entry.index
             (RawEntry.strE (pyReplace old_event_str entry.original_timestamp new_ts_str)),
           st.2.1 ++ [{ event_type := "LOG_INTEGRITY_CORRECTED",
                        timestamp := isoFormatSec now,
                        feature_name := some ctx.project_id,
                        step_id := some ctx.step_id,
                        data := { phase := some entry.phase_name,
                                  original_timestamp := some entry.original_timestamp,
                                  corrected_timestamp := some new_ts_str,
                                  reason := some entry.reason } }],
           st.2.2 ++ [entry.index])
        else st
      | _ => st
    else st) (raw_events, ([], []))

/-! ## Commit verification (`ports/driven_ports/commit_verifier.py`,
`adapters/driven/git/git_commit_verifier.py`) -/

/-- Result of a commit verification check. -/
structure CommitVerificationResult where
  verified : Bool
  commit_hash : Option String := none
  commit_date : Option String := none
  commit_subject : Option String := none
  error_reason : Option String := none
deriving DecidableEq, Repr

/-- The outcome of the `git log` subprocess the adapter runs: either the
call raises (timeout, missing binary, ...) or it exits with a return code
and captured stdout/stderr. -/
inductive GitLogOutcome where
  | raises (msg : String)
  | exits (returncode : Int) (stdout stderr : String)
deriving DecidableEq, Repr

/-- Python `s.strip()`. -/
def pyStrip (s : String) : String :=
  String.mk ((s.data.dropWhile (·.isWhitespace)).reverse.dropWhile (·.isWhitespace)
    |>.reverse)

/-- Python `s.split(sep, 2)`: at most three parts. -/
def pySplitLimit2 (s sep : String) : List String :=
  let parts := s.splitOn sep
  if parts.length ≤ 3 then parts
  else parts.take 2 ++ [String.intercalate sep (parts.drop 2)]

/-- `GitCommitVerifier.verify_commit`: every exception is caught and
mapped to an unverified result — the adapter never lets an error escape. -/
def GitCommitVerifier.verify_commit (step_id : String) (outcome : GitLogOutcome) :
    CommitVerificationResult :=
  match outcome with
  | .raises e =>
      { verified := false, error_reason := some ("Git verification error: " ++ e) }
  | .exits returncode stdout stderr =>
      if returncode ≠ 0 then
        { verified := false,
          error_reason := some ("git command failed: " ++ pyStrip stderr) }
      else
        let output := pyStrip stdout
        if output = "" then
          { verified := false,
            error_reason := some ("No commit found with Step-ID: " ++ step_id) }
        else
          let parts := pySplitLimit2 output "|"
          { verified := true,
            commit_hash := if parts.length > 0 then some (parts.getD 0 "") else none,
            commit_date := if parts.length > 1 then some (parts.getD 1 "") else none,
            commit_subject := if parts.length > 2 then some (parts.getD 2 "") else none }

/-! ## Scope checking (`ports/driven_ports/scope_checker.py`) -/

/-- Result of a scope check. -/
structure ScopeCheckResult where
  has_violations : Bool := false
  out_of_scope_files : List String := []
  skipped : Bool := false
  skip_reason : Option String := none
deriving DecidableEq, Repr

/-! ## Subagent stop service (`des/application/subagent_stop_service.py`) -/

/-- Outcome of one `ExecutionLogReader` call: the value, or one of the two
distinct raised conditions. -/
inductive ReadResult (α : Type) where
  | ok (a : α)
  | notFound (msg : String)
  | corrupted (msg : String)

/-- The collaborator responses one `SubagentStopService.validate` run
observes (log reader, raw YAML read, commit verifier, scope checker,
schema, fuzzy matcher, time provider).  `commit_result = none` models an
absent commit verifier; `raw_yaml_events = none` a failed raw-YAML read;
`has_integrity_validator = false` an absent integrity validator. -/
structure StopEnv where
  read_project_id : ReadResult (Option String)
  read_step_events : ReadResult (List PhaseEvent)
  read_step_events_again : ReadResult (List PhaseEvent)
  read_all_events : ReadResult (List PhaseEvent)
  raw_yaml_events : Option (List RawEntry) := none
  has_integrity_validator : Bool := true
  commit_result : Option CommitVerificationResult := none
  scope_result : ScopeCheckResult := {}
  suggest : String → List String → Option String := fun _ _ => none
  schema : TDDSchema
  now : Int

/-- Python `f"...{x}..."` of an `Option String` (`None` renders "None"). -/
def pyShowOpt : Option String → String
  | some s => s
  | none => "None"

/-- `SubagentStopService._log_failed` (the `_add_execution_stats` fields
are present only when the counters are). -/
def SubagentStopService.failedEvent (now : Int) (feature_name step_id : String)
    (error_messages : List String) (allowed_despite_failure : Bool)
    (hook_id : Option String) (turns_used tokens_used : Option Int) : AuditEvent :=
  { event_type := "HOOK_SUBAGENT_STOP_FAILED", timestamp := isoFormatSec now,
    feature_name := some feature_name, step_id := some step_id, hook_id := hook_id,
    data := { validation_errors := error_messages,
              allowed_despite_failure := allowed_despite_failure,
              turns_used := turns_used, tokens_used := tokens_used } }

/-- `SubagentStopService._log_passed`. -/
def SubagentStopService.passedEvent (now : Int) (feature_name step_id : String)
    (hook_id : Option String) (turns_used tokens_used : Option Int) : AuditEvent :=
  { event_type := "HOOK_SUBAGENT_STOP_PASSED", timestamp := isoFormatSec now,
    feature_name := some feature_name, step_id := some step_id, hook_id := hook_id,
    data := { turns_used := turns_used, tokens_used := tokens_used } }

/-- `SubagentStopService._log_commit_verified`. -/
def SubagentStopService.commitVerifiedEvent (now : Int) (ctx : SubagentStopContext)
    (result : CommitVerificationResult) (hook_id : Option String) : AuditEvent :=
  { event_type := "COMMIT_VERIFIED", timestamp := isoFormatSec now,
    feature_name := some ctx.project_id, step_id := some ctx.step_id, hook_id := hook_id,
    data := { commit_hash := result.commit_hash, commit_date := result.commit_date,
              commit_subject := result.commit_subject,
              turns_used := ctx.turns_used, tokens_used := ctx.tokens_used } }

/-- `SubagentStopService._log_commit_not_verified`. -/
def SubagentStopService.commitNotVerifiedEvent (now : Int) (ctx : SubagentStopContext)
    (result : CommitVerificationResult) (hook_id : Option String) : AuditEvent :=
  { event_type := "COMMIT_NOT_VERIFIED", timestamp := isoFormatSec now,
    feature_name := some ctx.project_id, step_id := some ctx.step_id, hook_id := hook_id,
    data := { error_reason := result.error_reason } }

/-- `SubagentStopService._check_and_correct_integrity`: validate the whole
trace, correct what can be corrected, and emit warning audit events for
the warnings that do not correspond to an actually corrected entry.
(The returned events are what the audit sink receives.) -/
def SubagentStopService.check_and_correct_integrity (env : StopEnv)
    (ctx : SubagentStopContext) : List AuditEvent :=
  if ¬ env.has_integrity_validator then []
  else
    match env.read_all_events with
    | .ok all_events =>
      let result := LogIntegrityValidator.validate env.suggest env.schema ctx.step_id
        all_events (if ctx.task_start_time ≠ "" then some ctx.task_start_time else none)
        env.now
      let corrections :=
        if result.correctable_entries ≠ [] then
          match env.raw_yaml_events with
          | some raws => (correctTimestamps ctx env.now result.correctable_entries raws).2
          | none => ([], [])
        else ([], [])
      let warnAudits := result.warnings.foldl (fun acc warning =>
        let is_corrected := result.correctable_entries.any (fun entry =>
          entry.index ∈ corrections.2 ∧ pyContains warning entry.phase_name
            ∧ pyContains warning entry.original_timestamp)
        if ¬ is_corrected then
          acc ++ [{ event_type := "LOG_INTEGRITY_WARNING", timestamp := isoFormatSec env.now,
                    feature_name := some ctx.project_id, step_id := some ctx.step_id,
                    data := { warning := some warning } }]
        else acc) []
      corrections.1 ++ warnAudits
    | _ => []

/-- `SubagentStopService._check_and_log_scope`: violations are logged,
never block. -/
def SubagentStopService.check_and_log_scope (env : StopEnv)
    (ctx : SubagentStopContext) : List AuditEvent :=
  if env.scope_result.has_violations then
    env.scope_result.out_of_scope_files.map (fun file_path =>
      { event_type := "SCOPE_VIOLATION", timestamp := isoFormatSec env.now,
        feature_name := some ctx.project_id, step_id := some ctx.step_id,
        data := { out_of_scope_file := some file_path } })
  else []

/-- The step events completion validation sees: the re-read after
correction, or the first read when the re-read fails. -/
def SubagentStopService.finalStepEvents (env : StopEnv) (events0 : List PhaseEvent) :
    List PhaseEvent :=
  match env.read_step_events_again with
  | .ok evs => evs
  | _ => events0

/-- Steps 4-5 of `SubagentStopService.validate` once no block was
returned: log scope violations (warning only) and allow with a PASSED
audit event. -/
def SubagentStopService.allowTail (env : StopEnv) (ctx : SubagentStopContext)
    (hook_id : Option String) (audits : List AuditEvent) :
    HookDecision × List AuditEvent :=
  (HookDecision.allow,
   audits ++ SubagentStopService.check_and_log_scope env ctx
     ++ [SubagentStopService.passedEvent env.now ctx.project_id ctx.step_id
           hook_id ctx.turns_used ctx.tokens_used])

/-- `SubagentStopService.validate`: the stop-decision orchestration.
Returns the hook decision and the audit events emitted along the way. -/
def SubagentStopService.validate (env : StopEnv) (ctx : SubagentStopContext)
    (hook_id : Option String) : HookDecision × List AuditEvent :=
  match env.read_project_id with
  | .notFound _ =>
    (HookDecision.block ("Execution log not found: " ++ ctx.execution_log_path)
      ["Create execution-log.yaml file", "Run orchestrator to initialize log"], [])
  | .corrupted e =>
    (HookDecision.block ("Invalid YAML in execution log: " ++ e)
      ["Fix YAML syntax errors in execution-log.yaml"], [])
  | .ok log_project_id =>
    if log_project_id ≠ some ctx.project_id then
      (HookDecision.block ("Project ID mismatch: expected '" ++ ctx.project_id
          ++ "', found '" ++ pyShowOpt log_project_id ++ "'")
        ["Verify you're working on project '" ++ ctx.project_id ++ "'",
         "Check DES-PROJECT-ID marker in prompt"], [])
    else
      match env.read_step_events with
      | .notFound e =>
        (HookDecision.block ("Failed to read step events: " ++ e)
          ["Check execution-log.yaml file integrity"], [])
      | .corrupted e =>
        (HookDecision.block ("Failed to read step events: " ++ e)
          ["Check execution-log.yaml file integrity"], [])
      | .ok events0 =>
        let integrityAudits := SubagentStopService.check_and_correct_integrity env ctx
        let events := SubagentStopService.finalStepEvents env events0
        let completion := StepCompletionValidator.validate env.schema events
        if ¬ completion.is_valid then
          let error_message :=
            if completion.error_messages ≠ [] then
              String.intercalate "; " completion.error_messages
            else "Validation failed"
          if ctx.stop_hook_active then
            (HookDecision.allow,
             integrityAudits ++ [SubagentStopService.failedEvent env.now ctx.project_id
               ctx.step_id completion.error_messages true hook_id
               ctx.turns_used ctx.tokens_used])
          else
            (HookDecision.block error_message completion.recovery_suggestions,
             integrityAudits ++ [SubagentStopService.failedEvent env.now ctx.project_id
               ctx.step_id completion.error_messages false hook_id
               ctx.turns_used ctx.tokens_used])
        else
          if ctx.cwd ≠ "" then
            match env.commit_result with
            | some commit_result =>
              if ¬ commit_result.verified then
                (HookDecision.block
                   ("COMMIT_NOT_VERIFIED: " ++ pyShowOpt commit_result.error_reason)
                   ["Create a git commit with trailer 'Step-ID: " ++ ctx.step_id ++ "'",
                    "Ensure the COMMIT phase actually runs git commit",
                    "Check that git is available and you're in a git repository"],
                 integrityAudits
                   ++ [SubagentStopService.commitNotVerifiedEvent env.now ctx commit_result hook_id])
              else
                SubagentStopService.allowTail env ctx hook_id (integrityAudits
                  ++ [SubagentStopService.commitVerifiedEvent env.now ctx commit_result hook_id])
            | none => SubagentStopService.allowTail env ctx hook_id integrityAudits
          else SubagentStopService.allowTail env ctx hook_id integrityAudits

/-! ## Theorems -/

/-- The two well-formed shapes a `HookDecision` may take: exactly what
`HookDecision.allow()` and `HookDecision.block(...)` construct. -/
def HookDecision.wellFormed (d : HookDecision) : Prop :=
  (d.action = "allow" ∧ d.exit_code = 0 ∧ d.reason = none ∧ d.recovery_suggestions = [])
  ∨ (d.action = "block" ∧ d.exit_code = 2 ∧ d.reason ≠ none)

theorem HookDecision.allow_wellFormed : HookDecision.wellFormed HookDecision.allow := by
  left; exact ⟨rfl, rfl, rfl, rfl⟩

theorem HookDecision.block_wellFormed (r : String) (s : List String) :
    HookDecision.wellFormed (HookDecision.block r s) := by
  right; exact ⟨rfl, rfl, by simp [HookDecision.block]⟩


/-- C10: every HookDecision the stop-decision orchestrator returns is
well-formed in one of exactly two shapes: action "allow" with exit code 0,
reason `None` and empty recovery suggestions, or action "block" with exit
code 2 and a non-`None` reason — whatever the collaborators respond. -/
theorem c10_hook_decision_well_formed (env : StopEnv) (ctx : SubagentStopContext)
    (hook_id : Option String) :
    HookDecision.wellFormed (SubagentStopService.validate env ctx hook_id).1 := by
  simp only [SubagentStopService.validate, SubagentStopService.allowTail]
  repeat' split
  all_goals first
    | exact HookDecision.allow_wellFormed
    | exact HookDecision.block_wellFormed _ _

/-- C1: in every stop-decision run that reaches completion validation with
an invalid result while `stop_hook_active` is true, the orchestrator
returns the allow decision and still emits a HOOK_SUBAGENT_STOP_FAILED
audit event whose data carries `allowed_despite_failure = true`. -/
theorem c1_stop_hook_active_allows_yet_logs_failed (env : StopEnv)
    (ctx : SubagentStopContext) (hook_id : Option String) (evs0 : List PhaseEvent)
    (hpid : env.read_project_id = ReadResult.ok (some ctx.project_id))
    (hevs : env.read_step_events = ReadResult.ok evs0)
    (hinvalid : (StepCompletionValidator.validate env.schema
      (SubagentStopService.finalStepEvents env evs0)).is_valid = false)
    (hactive : ctx.stop_hook_active = true) :
    (SubagentStopService.validate env ctx hook_id).1 = HookDecision.allow ∧
    ∃ e ∈ (SubagentStopService.validate env ctx hook_id).2,
      e.event_type = "HOOK_SUBAGENT_STOP_FAILED" ∧
      e.data.allowed_despite_failure = true := by
  simp only [SubagentStopService.validate, hpid, hevs, hinvalid, hactive, ne_eq,
    not_true_eq_false, not_false_eq_true, if_true, if_false, ite_false, ite_true,
    Bool.false_eq_true, Option.some.injEq]
  constructor
  · simp
  · refine ⟨SubagentStopService.failedEvent env.now ctx.project_id ctx.step_id
      (StepCompletionValidator.validate env.schema
        (SubagentStopService.finalStepEvents env evs0)).error_messages true hook_id
      ctx.turns_used ctx.tokens_used, ?_, rfl, rfl⟩
    simp

/-- A minimal schema for concrete witness runs. -/
def witnessSchema : TDDSchema :=
  { tdd_phases := ["PREPARE"],
    valid_statuses := ["EXECUTED", "SKIPPED", "IN_PROGRESS", "NOT_EXECUTED"],
    valid_skip_prefixes := ["COVERED_BY:"],
    blocking_skip_prefixes := ["DEFERRED:"],
    terminal_phases := [] }

def c1Ctx : SubagentStopContext :=
  { project_id := "proj", step_id := "01-01", stop_hook_active := true }

def c1Env : StopEnv :=
  { read_project_id := .ok (some "proj"), read_step_events := .ok [],
    read_step_events_again := .ok [], read_all_events := .ok [],
    schema := witnessSchema, now := 0 }

theorem c1_witness :
    (SubagentStopService.validate c1Env c1Ctx none).1 = HookDecision.allow ∧
    ∃ e ∈ (SubagentStopService.validate c1Env c1Ctx none).2,
      e.event_type = "HOOK_SUBAGENT_STOP_FAILED" ∧
      e.data.allowed_despite_failure = true :=
  c1_stop_hook_active_allows_yet_logs_failed c1Env c1Ctx none [] rfl rfl (by decide) rfl

/-- C7: in every stop-decision run where completion validation passed, a
working directory is available and the commit verifier is the git
adapter, a not-verified report — including the case where the underlying
git call raises — yields a block decision whose recovery suggestions name
the Step-ID commit-trailer convention (the adapter maps every raised
error to a not-verified result, so no error escapes to the caller). -/
theorem c7_commit_failure_blocks_fail_closed (env : StopEnv)
    (ctx : SubagentStopContext) (hook_id : Option String)
    (evs0 : List PhaseEvent) (g : GitLogOutcome)
    (hpid : env.read_project_id = ReadResult.ok (some ctx.project_id))
    (hevs : env.read_step_events = ReadResult.ok evs0)
    (hvalid : (StepCompletionValidator.validate env.schema
      (SubagentStopService.finalStepEvents env evs0)).is_valid = true)
    (hcwd : ctx.cwd ≠ "")
    (hcommit : env.commit_result = some (GitCommitVerifier.verify_commit ctx.step_id g))
    (hfail : (∃ msg, g = GitLogOutcome.raises msg) ∨
      (GitCommitVerifier.verify_commit ctx.step_id g).verified = false) :
    (SubagentStopService.validate env ctx hook_id).1.action = "block" ∧
    (SubagentStopService.validate env ctx hook_id).1.exit_code = 2 ∧
    ("Create a git commit with trailer 'Step-ID: " ++ ctx.step_id ++ "'")
      ∈ (SubagentStopService.validate env ctx hook_id).1.recovery_suggestions := by
  have hver : (GitCommitVerifier.verify_commit ctx.step_id g).verified = false := by
    rcases hfail with ⟨msg, hmsg⟩ | hv
    · subst hmsg; rfl
    · exact hv
  simp only [SubagentStopService.validate, hpid, hevs, hvalid, hcommit, hcwd, hver, ne_eq,
    not_true_eq_false, not_false_eq_true, if_true, if_false, ite_false, ite_true,
    Bool.false_eq_true, Option.some.injEq]
  refine ⟨rfl, rfl, ?_⟩
  simp [HookDecision.block]

def c7Ctx : SubagentStopContext :=
  { project_id := "proj", step_id := "01-01", cwd := "/work" }

def c7Event : PhaseEvent :=
  { step_id := "01-01", phase_name := "PREPARE", status := "EXECUTED",
    outcome := "PASS", timestamp := "1970-01-01T00:00:00Z" }

def c7Env : StopEnv :=
  { read_project_id := .ok (some "proj"), read_step_events := .ok [c7Event],
    read_step_events_again := .ok [c7Event], read_all_events := .ok [c7Event],
    commit_result := some (GitCommitVerifier.verify_commit "01-01"
      (GitLogOutcome.raises "Command timed out")),
    schema := { witnessSchema with tdd_phases := [] },
    now := 0 }

theorem c7_witness :
    (SubagentStopService.validate c7Env c7Ctx none).1.action = "block" ∧
    (SubagentStopService.validate c7Env c7Ctx none).1.exit_code = 2 ∧
    ("Create a git commit with trailer 'Step-ID: " ++ c7Ctx.step_id ++ "'")
      ∈ (SubagentStopService.validate c7Env c7Ctx none).1.recovery_suggestions :=
  c7_commit_failure_blocks_fail_closed c7Env c7Ctx none [c7Event]
    (GitLogOutcome.raises "Command timed out") rfl rfl (by decide) (by decide) rfl
    (Or.inl ⟨"Command timed out", rfl⟩)

/-- The sublist keeping only the last occurrence of each phase name, in
trace order. -/
def keepLastPerPhase (events : List PhaseEvent) : List PhaseEvent :=
  events.foldr (fun e acc =>
    if acc.any (fun x => x.phase_name = e.phase_name) then acc else e :: acc) []

theorem keepLastPerPhase_cons (e : PhaseEvent) (l : List PhaseEvent) :
    keepLastPerPhase (e :: l) =
      if (keepLastPerPhase l).any (fun x => x.phase_name = e.phase_name) then
        keepLastPerPhase l
      else e :: keepLastPerPhase l := rfl

theorem keepLastPerPhase_nil_iff (l : List PhaseEvent) :
    keepLastPerPhase l = [] ↔ l = [] := by
  induction l with
  | nil => simp [keepLastPerPhase]
  | cons e l ih =>
    rw [keepLastPerPhase_cons]
    constructor
    · intro h
      split at h
      · rename_i hany
        rw [ih] at h
        subst h
        simp [keepLastPerPhase] at hany
      · exact absurd h (by simp)
    · intro h; exact absurd h (by simp)

theorem foldl_upd_of_mem (p : String) (xs : List PhaseEvent)
    (hx : ∃ x ∈ xs, x.phase_name = p) (i1 i2 : Option PhaseEvent) :
    xs.foldl (fun acc e => if e.phase_name = p then some e else acc) i1
      = xs.foldl (fun acc e => if e.phase_name = p then some e else acc) i2 := by
  induction xs generalizing i1 i2 with
  | nil => simp at hx
  | cons x rest ih =>
    obtain ⟨y, hy, hyp⟩ := hx
    rcases List.mem_cons.mp hy with rfl | hyrest
    · simp only [List.foldl_cons, if_pos hyp]
    · simp only [List.foldl_cons]
      exact ih ⟨y, hyrest, hyp⟩ _ _

theorem any_keepLastPerPhase (l : List PhaseEvent) (p : String) :
    (keepLastPerPhase l).any (fun x => x.phase_name = p)
      = l.any (fun x => x.phase_name = p) := by
  induction l with
  | nil => rfl
  | cons e l ih =>
    rw [keepLastPerPhase_cons]
    split
    · rename_i hany
      rw [List.any_cons, ih]
      by_cases hp : e.phase_name = p
      · have : (keepLastPerPhase l).any (fun x => x.phase_name = p) = true := by
          rw [List.any_eq_true] at hany ⊢
          obtain ⟨x, hx, hxe⟩ := hany
          exact ⟨x, hx, by simp at hxe ⊢; rw [hxe, hp]⟩
        rw [ih] at this
        simp [this]
      · simp [hp]
    · rw [List.any_cons, List.any_cons, ih]

theorem lastEventFor_keepLastPerPhase (l : List PhaseEvent) (p : String) :
    lastEventFor (keepLastPerPhase l) p = lastEventFor l p := by
  unfold lastEventFor
  suffices h : ∀ init : Option PhaseEvent,
      (keepLastPerPhase l).foldl (fun acc e => if e.phase_name = p then some e else acc) init
        = l.foldl (fun acc e => if e.phase_name = p then some e else acc) init from h none
  induction l with
  | nil => intro init; rfl
  | cons e l ih =>
    intro init
    rw [keepLastPerPhase_cons]
    split
    · rename_i hany
      simp only [List.foldl_cons]
      by_cases hp : e.phase_name = p
      · rw [ih]
        refine foldl_upd_of_mem p l ?_ _ _
        have : (keepLastPerPhase l).any (fun x => x.phase_name = p) = true := by
          rw [List.any_eq_true] at hany ⊢
          obtain ⟨x, hx, hxe⟩ := hany
          exact ⟨x, hx, by simp at hxe ⊢; rw [hxe, hp]⟩
        rw [any_keepLastPerPhase, List.any_eq_true] at this
        obtain ⟨x, hx, hxe⟩ := this
        exact ⟨x, hx, by simpa using hxe⟩
      · rw [if_neg hp, ih]
    · simp only [List.foldl_cons, ih]

/-- C8: the Completion Validator's result depends only on the last
(highest trace-index) event of each phase: validating an event list
equals validating the sublist that keeps only each phase's last
occurrence. -/
theorem c8_last_occurrence_wins (schema : TDDSchema) (events : List PhaseEvent) :
    StepCompletionValidator.validate schema events
      = StepCompletionValidator.validate schema (keepLastPerPhase events) := by
  by_cases h : events = []
  · subst h; rfl
  · have h2 : keepLastPerPhase events ≠ [] :=
      fun hh => h ((keepLastPerPhase_nil_iff events).mp hh)
    unfold StepCompletionValidator.validate
    rw [if_neg h2, if_neg h]
    simp only [lastEventFor_keepLastPerPhase]

/-- The schema for the C6 failing input: IN_PROGRESS and NOT_EXECUTED are
among the schema's valid statuses (spec §3). -/
def c6Schema : TDDSchema :=
  { tdd_phases := ["PREPARE", "GREEN"],
    valid_statuses := ["EXECUTED", "SKIPPED", "IN_PROGRESS", "NOT_EXECUTED"],
    valid_skip_prefixes := ["COVERED_BY:"],
    blocking_skip_prefixes := ["DEFERRED:"],
    terminal_phases := [] }

def c6Events : List PhaseEvent :=
  [{ step_id := "01-01", phase_name := "PREPARE", status := "EXECUTED",
     outcome := "PASS", timestamp := "2026-02-02T10:00:00Z" },
   { step_id := "01-01", phase_name := "GREEN", status := "IN_PROGRESS",
     outcome := "", timestamp := "2026-02-02T10:05:00Z" }]

/-- C6 (code evaluated at the failing input): a required phase whose last
event has status IN_PROGRESS — neither EXECUTED nor SKIPPED — produces no
error message at all, and the completion result is valid: the
`status not in valid_statuses` guard never fires for IN_PROGRESS or
NOT_EXECUTED because both are valid statuses, contradicting the claim
(and spec §4.3's "any other status value ⇒ generic error message"). -/
theorem c6_in_progress_counts_as_valid :
    (StepCompletionValidator.validate c6Schema c6Events).is_valid = true ∧
    (StepCompletionValidator.validate c6Schema c6Events).error_messages = [] ∧
    (lastEventFor c6Events "GREEN").map (fun e => e.status) = some "IN_PROGRESS" := by
  decide

/-- C9: parsing raw trace entries is total and faithful: a pipe string
with fewer than 5 fields parses to nothing, a structured mapping missing
a required key parses to nothing, an entry that parses to nothing never
aborts batch parsing (the remaining entries parse as if it were absent),
and a structured mapping with all five required keys yields exactly the
PhaseEvent mapped from {sid, p, s, d, t} (plus optional stats). -/
theorem c9_parsing_total_and_faithful :
    (∀ s : String, (s.splitOn "|").length < 5 → PhaseEventParser.parse s = none) ∧
    (∀ e : StructuredEntry,
      (e.sid = none ∨ e.p = none ∨ e.s = none ∨ e.d = none ∨ e.t = none) →
      PhaseEventParser.parse_structured e = none) ∧
    (∀ (pre post : List RawEntry) (bad : RawEntry) (sid : String),
      PhaseEventParser.parse_auto bad = none →
      PhaseEventParser.parse_many (pre ++ bad :: post) sid
        = PhaseEventParser.parse_many (pre ++ post) sid) ∧
    (∀ (sid p st d t : String) (tu tk : Option Int),
      PhaseEventParser.parse_structured
          { sid := some sid, p := some p, s := some st, d := some d, t := some t,
            tu := tu, tk := tk }
        = some { step_id := sid, phase_name := p, status := st, outcome := d,
                 timestamp := t, turns_used := tu, tokens_used := tk }) := by
  refine ⟨?_, ?_, ?_, ?_⟩
  · intro s h
    unfold PhaseEventParser.parse
    rw [if_pos h]
  · intro e h
    obtain ⟨sid, p, st, d, t, tu, tk⟩ := e
    unfold PhaseEventParser.parse_structured
    rcases h with h | h | h | h | h <;> subst h <;>
      first
      | rfl
      | (cases sid <;> cases p <;> cases st <;> cases d <;> cases t <;> rfl)
      | (cases sid <;> cases p <;> cases st <;> cases d <;> rfl)
      | (cases sid <;> cases p <;> cases st <;> rfl)
      | (cases sid <;> cases p <;> rfl)
      | (cases sid <;> rfl)
  · intro pre post bad sid h
    unfold PhaseEventParser.parse_many
    rw [List.filterMap_append, List.filterMap_append, List.filterMap_cons, h]
  · intro sid p st d t tu tk
    rfl


/-- `Except.ok` bind computes. -/
theorem except_ok_bind (a : List String × List CorrectableEntry)
    (f : List String × List CorrectableEntry
      → Except String (List String × List CorrectableEntry)) :
    (Except.ok (ε := String) a).bind f = f a := rfl

set_option maxHeartbeats 8000000 in
theorem civil_core (z era doe c r q r2 yq yoe doy mp mq d m y : Int)
    (hera : era = (z + 719468) / 146097)
    (hdoe : doe = (z + 719468) - era * 146097)
    (hc : c = (4 * doe + 3) / 146097)
    (hr : r = doe - c * 36524)
    (hq : q = r / 1461)
    (hr2 : r2 = r - q * 1461)
    (hyq : yq = (r2 - r2 / 1460) / 365)
    (hyoe : yoe = 100 * c + 4 * q + yq)
    (hdoy : doy = r2 - 365 * yq)
    (hmp : mp = (5 * doy + 2) / 153)
    (hmq : mq = (153 * mp + 2) / 5)
    (hd : d = doy - mq + 1)
    (hm : m = mp + (if mp < 10 then 3 else -9))
    (hy : y = (if m ≤ 2 then yoe + era * 400 + 1 else yoe + era * 400))
    (hlo : -354285 ≤ z) (hhi : z ≤ 2932896) :
    1000 ≤ y ∧ y ≤ 9999 ∧ 1 ≤ m ∧ m ≤ 12 ∧ 1 ≤ d ∧ d ≤ daysInMonth y m
    ∧ daysFromCivil y m d = z := by
  have hDoeR : 0 ≤ doe ∧ doe ≤ 146096 := by omega
  have hCR : 0 ≤ c ∧ c ≤ 3 := by omega
  have hRlow : 0 ≤ r := by omega
  have hRC : 4 * r ≤ c + 146093 := by omega
  have hRR : r ≤ 36524 := by omega
  have hQR : 0 ≤ q ∧ q ≤ 24 := by omega
  have hR2R : 0 ≤ r2 ∧ r2 ≤ 1460 := by omega
  have hYqR : 0 ≤ yq ∧ yq ≤ 3 := by omega
  have hDoyR : 0 ≤ doy ∧ doy ≤ 365 := by omega
  have hYoeR : 0 ≤ yoe ∧ yoe ≤ 399 := by omega
  have hMpR : 0 ≤ mp ∧ mp ≤ 11 := by omega
  have hMpDoy : 153 * mp ≤ 5 * doy + 2 ∧ 5 * doy + 2 ≤ 153 * mp + 152 := by omega
  have hMqS : 5 * mq ≤ 153 * mp + 2 ∧ 153 * mp + 2 ≤ 5 * mq + 4 := by omega
  have hDR : 1 ≤ d ∧ d ≤ 31 := by omega
  have hSum : z + 719468 = 146097 * era + 36524 * c + 1461 * q + 365 * yq + doy := by
    omega
  have hEraR : 2 ≤ era ∧ era ≤ 24 := by omega
  have hFeb365 : doy = 365 → r2 = 1460 ∧ yq = 3 := by omega
  have hyoe4 : yoe / 4 = 25 * c + q := by omega
  have hyoe100 : yoe / 100 = c := by omega
  clear hera hdoe hc hr hq hmp hmq hyq
  by_cases hmp10 : mp < 10
  · rw [if_pos hmp10] at hm
    rw [if_neg (by omega : ¬ m ≤ 2)] at hy
    have hDoyA : doy ≤ 305 := by omega
    clear hr2 hRC hFeb365
    have hy400 : y / 400 = era := by omega
    have hm12a : (m + 9) / 12 = 1 := by omega
    have hm12b : (m + 9) % 12 = mp := by omega
    have hmq5 : (153 * mp + 2) / 5 = mq := by omega
    refine ⟨by omega, by omega, by omega, by omega, by omega, ?_, ?_⟩
    · unfold daysInMonth isLeap
      split
      · omega
      · split
        · omega
        · omega
    · unfold daysFromCivil
      dsimp only
      rw [if_neg (by omega : ¬ m ≤ 2), hm12b, hmq5, hy400,
        show y - era * 400 = yoe from by omega, hyoe4, hyoe100]
      omega
  · rw [if_neg hmp10] at hm
    rw [if_pos (by omega : m ≤ 2)] at hy
    have hDoyB : 306 ≤ doy := by omega
    have hy400 : (y - 1) / 400 = era := by omega
    have hm12b : (m + 9) % 12 = mp := by omega
    have hmq5 : (153 * mp + 2) / 5 = mq := by omega
    refine ⟨by omega, by omega, by omega, by omega, by omega, ?_, ?_⟩
    · unfold daysInMonth isLeap
      split
      · split
        · omega
        · rename_i hm2 hleap
          simp only [isLeap, decide_eq_true_eq, Bool.or_eq_true, Bool.and_eq_true,
            decide_eq_false_iff_not, Bool.not_eq_true] at hleap
          push_neg at hleap
          by_contra hno
          have hdoy365 : doy = 365 := by omega
          obtain ⟨hr1460, hyq3⟩ := hFeb365 hdoy365
          have hmp11 : mp = 11 := by omega
          have h4 : y % 4 = 0 := by omega
          have h100 : y % 100 = 0 := hleap.1 h4
          have hq24 : q = 24 := by omega
          have hc3 : c = 3 := by omega
          have h400 : y % 400 = 0 := by omega
          exact hleap.2 h400
      · split
        · omega
        · omega
    · unfold daysFromCivil
      dsimp only
      rw [if_pos (by omega : m ≤ 2), hm12b, hmq5, hy400,
        show y - 1 - era * 400 = yoe from by omega, hyoe4, hyoe100]
      omega
set_option maxHeartbeats 4000000 in
theorem civil_inverse (z : Int) (hlo : -354285 ≤ z) (hhi : z ≤ 2932896) :
    1000 ≤ (civilFromDays z).1 ∧ (civilFromDays z).1 ≤ 9999
    ∧ 1 ≤ (civilFromDays z).2.1 ∧ (civilFromDays z).2.1 ≤ 12
    ∧ 1 ≤ (civilFromDays z).2.2
    ∧ (civilFromDays z).2.2 ≤ daysInMonth (civilFromDays z).1 (civilFromDays z).2.1
    ∧ daysFromCivil (civilFromDays z).1 (civilFromDays z).2.1 (civilFromDays z).2.2 = z := by
  rcases hc : civilFromDays z with ⟨y, m, d⟩
  dsimp only
  unfold civilFromDays at hc
  dsimp only at hc
  rw [Prod.mk.injEq, Prod.mk.injEq] at hc
  obtain ⟨h1, h2, h3⟩ := hc
  subst h1
  subst h2
  subst h3
  exact civil_core z _ _ _ _ _ _ _ _ _ _ _ _ _ _ rfl rfl rfl rfl rfl rfl rfl rfl rfl
    rfl rfl rfl rfl rfl hlo hhi

/-- `digitVal` inverts `digitChar10`. -/
theorem digitVal_digitChar10 (n : Nat) :
    digitVal (digitChar10 n) = some ((n % 10 : Nat) : Int) := by
  unfold digitVal digitChar10
  have h10 : n % 10 < 10 := Nat.mod_lt _ (by norm_num)
  set k := n % 10 with hk
  interval_cases k <;> decide

/-- `take2` inverts `render2` below 100. -/
theorem take2_render2 (n : Nat) (h : n < 100) (rest : List Char) :
    take2 (render2 n ++ rest) = some ((n : Int), rest) := by
  unfold render2 take2
  simp only [List.cons_append, List.nil_append, digitVal_digitChar10, Option.bind_eq_bind,
    Option.some_bind, Option.pure_def, Option.some.injEq, Prod.mk.injEq]
  refine ⟨by omega, trivial⟩

/-- `take4` inverts `render4` below 10000. -/
theorem take4_render4 (n : Nat) (h : n < 10000) (rest : List Char) :
    take4 (render4 n ++ rest) = some ((n : Int), rest) := by
  unfold render4 take4
  simp only [List.cons_append, List.nil_append, digitVal_digitChar10, Option.bind_eq_bind,
    Option.some_bind, Option.pure_def, Option.some.injEq, Prod.mk.injEq]
  refine ⟨by omega, trivial⟩

set_option maxHeartbeats 4000000 in
/-- Round trip: parsing a formatted timestamp yields an aware datetime at
the whole second, for microsecond instants within years 1000-9999. -/
theorem fromisoformat_isoFormatSec (t : Int)
    (hlo : -30610224000000000 ≤ t) (hhi : t < 253402300800000000) :
    fromisoformat (isoFormatSec t) = some ⟨1000000 * (t / 1000000), true⟩ := by
  have hdays_lo : -354285 ≤ t / 1000000 / 86400 := by omega
  have hdays_hi : t / 1000000 / 86400 ≤ 2932896 := by omega
  obtain ⟨hy1, hy2, hm1, hm2, hd1, hd2, hinv⟩ :=
    civil_inverse (t / 1000000 / 86400) hdays_lo hdays_hi
  rcases hcd : civilFromDays (t / 1000000 / 86400) with ⟨y, m, d⟩
  rw [hcd] at hy1 hy2 hm1 hm2 hd1 hd2 hinv
  dsimp only at hy1 hy2 hm1 hm2 hd1 hd2 hinv
  have hsod1 : 0 ≤ t / 1000000 % 86400 := by omega
  have hsod2 : t / 1000000 % 86400 < 86400 := by omega
  have hd31 : d ≤ 31 := by
    have h31 : daysInMonth y m ≤ 31 := by
      unfold daysInMonth
      split
      · split <;> omega
      · split <;> omega
    omega
  have hy0 : (0 : Int) ≤ y := by omega
  have hm0 : (0 : Int) ≤ m := by omega
  have hd0 : (0 : Int) ≤ d := by omega
  unfold fromisoformat isoFormatSec
  dsimp only
  rw [hcd]
  dsimp only
  unfold fromisoformatChars
  simp only [Option.bind_eq_bind]
  rw [take4_render4 y.toNat (show y.toNat < 10000 by omega)]
  simp only [Option.some_bind]
  rw [take2_render2 m.toNat (show m.toNat < 100 by omega)]
  simp only [Option.some_bind]
  rw [take2_render2 d.toNat (show d.toNat < 100 by omega)]
  simp only [Option.some_bind]
  rw [Int.toNat_of_nonneg hy0, Int.toNat_of_nonneg hm0, Int.toNat_of_nonneg hd0]
  rw [if_pos (show (1 : Int) ≤ y ∧ 1 ≤ m ∧ m ≤ 12 ∧ 1 ≤ d ∧ d ≤ daysInMonth y m from
    ⟨by omega, by omega, hm2, hd1, hd2⟩)]
  split
  · unfold timePart
    simp only [Option.bind_eq_bind]
    rw [take2_render2 (t / 1000000 % 86400 / 3600).toNat (show _ < 100 by omega)]
    simp only [Option.some_bind]
    rw [take2_render2 (t / 1000000 % 86400 % 3600 / 60).toNat (show _ < 100 by omega)]
    simp only [Option.some_bind]
    rw [take2_render2 (t / 1000000 % 86400 % 60).toNat (show _ < 100 by omega)]
    simp only [Option.some_bind]
    split
    · next heq =>
        injection heq with h1 h2
        exact absurd h1 (by decide)
    · simp only [Option.pure_def, Option.some_bind]
      rw [if_pos (show (↑(t / 1000000 % 86400 % 3600 / 60).toNat : Int) ≤ 59
          ∧ (↑(t / 1000000 % 86400 % 60).toNat : Int) ≤ 59 from ⟨by omega, by omega⟩)]
      rw [if_pos (show (↑(t / 1000000 % 86400 / 3600).toNat : Int) ≤ 23 from by omega)]
      rw [show takeOffset ['Z'] = some 0 from by decide]
      simp only [Option.pure_def, Option.some_bind]
      rw [Int.toNat_of_nonneg (show (0 : Int) ≤ t / 1000000 % 86400 / 3600 by omega),
        Int.toNat_of_nonneg (show (0 : Int) ≤ t / 1000000 % 86400 % 3600 / 60 by omega),
        Int.toNat_of_nonneg (show (0 : Int) ≤ t / 1000000 % 86400 % 60 by omega)]
      rw [hinv]
      simp only [Option.some.injEq, PyDatetime.mk.injEq]
      refine ⟨by omega, trivial⟩
  · next hne => exact (hne (Or.inl trivial)).elim

/-! ## Corrector interpolation (C2) -/

/-- CPython `_divide_and_round` is exact division when the divisor divides. -/
theorem pyDivRound_exact (a b : Int) (hb : 0 < b) (h : b ∣ a) :
    pyDivRound a b = a / b := by
  obtain ⟨c, rfl⟩ := h
  have hr : b * c % b = 0 := Int.mul_emod_right b c
  unfold pyDivRound
  rw [if_neg (by omega)]

/-- When `now - start` is divisible by N+1, the corrector's interpolated
instants are exactly the evenly spaced points, strictly increasing and
strictly inside the window. -/
theorem interpolation_exact (start now : Int) (n : Nat) (hn : 1 ≤ n)
    (hlt : start < now) (hdvd : (Int.ofNat n + 1) ∣ (now - start)) :
    interpolatedTimestamps start now n
      = (List.range n).map
          (fun k => start + (now - start) / (Int.ofNat n + 1) * (Int.ofNat k + 1))
    ∧ (interpolatedTimestamps start now n).Pairwise (· < ·)
    ∧ ∀ v ∈ interpolatedTimestamps start now n, start < v ∧ v < now := by
  have hb : (0 : Int) < Int.ofNat n + 1 := by
    simp only [Int.ofNat_eq_coe]
    omega
  have hex : pyDivRound (now - start) (Int.ofNat n + 1)
      = (now - start) / (Int.ofNat n + 1) :=
    pyDivRound_exact _ _ hb hdvd
  obtain ⟨c, hc⟩ := hdvd
  have hcq : (now - start) / (Int.ofNat n + 1) = c := by
    rw [hc, Int.mul_ediv_cancel_left _ (by omega)]
  have hcpos : 0 < c := by nlinarith
  have heq : interpolatedTimestamps start now n
      = (List.range n).map
          (fun k => start + (now - start) / (Int.ofNat n + 1) * (Int.ofNat k + 1)) := by
    unfold interpolatedTimestamps
    by_cases h1 : n = 1
    · subst h1
      have hex2 : pyDivRound (now - start) 2 = (now - start) / 2 := by
        simpa using hex
      rw [show List.range 1 = [0] from rfl]
      simp [hex2]
    · rw [if_neg h1]
      simp only [hex]
  refine ⟨heq, ?_, ?_⟩
  · rw [heq]
    refine List.Pairwise.map _ ?_ (List.pairwise_lt_range n)
    intro a b hab
    rw [hcq]
    have : (Int.ofNat a + 1) < (Int.ofNat b + 1) := by
      simp only [Int.ofNat_eq_coe]
      omega
    nlinarith
  · rw [heq]
    intro v hv
    simp only [List.mem_map, List.mem_range] at hv
    obtain ⟨k, hk, rfl⟩ := hv
    rw [hcq]
    have hk1 : (1 : Int) ≤ Int.ofNat k + 1 := by
      simp only [Int.ofNat_eq_coe]
      omega
    have hkn : Int.ofNat k + 1 ≤ Int.ofNat n := by
      simp only [Int.ofNat_eq_coe]
      omega
    constructor
    · nlinarith
    · nlinarith

/-- C2: with `task_start` strictly before `now` and the window length
divisible by N+1 microseconds, the corrected instants are exactly
`start + k * (now - start) / (N + 1)` for `k = 1..N` in discovery order
(for N = 1 the exact midpoint), strictly increasing, and strictly inside
the open window `(task_start, now)`. -/
theorem c2_correction_interpolation (start now : Int) (n : Nat) (hn : 1 ≤ n)
    (hlt : start < now) (hdvd : (Int.ofNat n + 1) ∣ (now - start)) :
    interpolatedTimestamps start now n
      = (List.range n).map
          (fun k => start + (now - start) / (Int.ofNat n + 1) * (Int.ofNat k + 1))
    ∧ (interpolatedTimestamps start now n).Pairwise (· < ·)
    ∧ ∀ v ∈ interpolatedTimestamps start now n, start < v ∧ v < now :=
  interpolation_exact start now n hn hlt hdvd

/-- C2 counterexample: with a 2-microsecond window and two correctable
entries, `timedelta` division rounds two thirds of a microsecond up to
one, so the corrected instants are start+1 and start+2 - the last equal
to `now`, on the boundary rather than strictly inside the window, and
neither of the form `start + k * (now - start) / (N + 1)`. -/
theorem c2_counterexample :
    interpolatedTimestamps 0 2 2 = [1, 2]
    ∧ ¬ (∀ v ∈ interpolatedTimestamps 0 2 2, 0 < v ∧ v < 2) := by decide

/-- C2 witness: start 0, now 3, two correctable entries. -/
theorem c2_witness :
    (1 ≤ 2 ∧ (0 : Int) < 3 ∧ (Int.ofNat 2 + 1) ∣ ((3 : Int) - 0))
    ∧ (interpolatedTimestamps 0 3 2
        = (List.range 2).map
            (fun k => 0 + ((3 : Int) - 0) / (Int.ofNat 2 + 1) * (Int.ofNat k + 1))
      ∧ (interpolatedTimestamps 0 3 2).Pairwise (· < ·)
      ∧ ∀ v ∈ interpolatedTimestamps 0 3 2, 0 < v ∧ v < 3) :=
  ⟨⟨by decide, by decide, ⟨1, by decide⟩⟩,
   c2_correction_interpolation 0 3 2 (by decide) (by decide) ⟨1, by decide⟩⟩

/-! ## Corrector wire formats (C3) -/

/-- C5 (amended): when the correction window divides evenly (so the
interpolated instants are strictly inside it) and lies in the four-digit
year range, a corrected event - its timestamp rewritten to the
second-truncated rendering of an interpolated instant - is never flagged
correctable again by the exact timestamp check run with the same `now`
and task start: at worst it draws a within-tolerance warning. -/
theorem c5_recheck_clean_when_divisible
    (tss : String) (start now : Int) (n : Nat) (v : Int)
    (sid : String) (ev : PhaseEvent)
    (hn : 1 ≤ n) (hlt : start < now)
    (hdvd : (Int.ofNat n + 1) ∣ (now - start))
    (hlo : (-30610224000000000 : Int) ≤ start)
    (hhi : now < 253402300800000000)
    (hstart : fromisoformat tss = some ⟨start, true⟩)
    (hv : v ∈ interpolatedTimestamps start now n)
    (hts : ev.timestamp = isoFormatSec v) :
    ∃ ws, LogIntegrityValidator.check_timestamps_run sid [ev] (some tss) now
      = Except.ok (ws, []) := by
  obtain ⟨-, -, hin⟩ := interpolation_exact start now n hn hlt hdvd
  obtain ⟨hv1, hv2⟩ := hin v hv
  have hvlo : (-30610224000000000 : Int) ≤ v := by omega
  have hvhi : v < 253402300800000000 := by omega
  have hround := fromisoformat_isoFormatSec v hvlo hvhi
  have hnf : ¬ (1000000 * (v / 1000000) > now) := by omega
  have hnp : ¬ (1000000 * (v / 1000000) < start - 60000000) := by omega
  by_cases hstep : ev.step_id ≠ sid
  · refine ⟨[], ?_⟩
    simp [LogIntegrityValidator.check_timestamps_run, checkTsRun, hstep]
  · by_cases hwarn : 1000000 * (v / 1000000) < start
    · refine ⟨["Pre-task timestamp on " ++ ev.phase_name ++ ": " ++ ev.timestamp], ?_⟩
      simp [LogIntegrityValidator.check_timestamps_run, checkTsRun, hstep, hts, hstart,
        hround, hnf, hnp, hwarn, Except.map]
    · refine ⟨[], ?_⟩
      simp [LogIntegrityValidator.check_timestamps_run, checkTsRun, hstep, hts, hstart,
        hround, hnf, hnp, hwarn, Except.map]

/-- C5 counterexample: a window of 9 microseconds ending just before a
second boundary, with five correctable entries.  `timedelta` division
rounds 9/6 of a microsecond up to 2, the fifth corrected instant lands
one microsecond past `now` on the exact second boundary, its rendered
timestamp "2026-01-01T00:00:00Z" parses back to a value strictly after
`now`, and the re-run immediately flags it correctable `future` again. -/
theorem c5_counterexample :
    fromisoformat "2025-12-31T23:59:59.99999Z" = some ⟨1767225599999990, true⟩
    ∧ correctStart "2025-12-31T23:59:59.99999Z" 1767225599999999 = 1767225599999990
    ∧ interpolatedTimestamps 1767225599999990 1767225599999999 5
      = [1767225599999992, 1767225599999994, 1767225599999996,
         1767225599999998, 1767225600000000]
    ∧ isoFormatSec 1767225600000000 = "2026-01-01T00:00:00Z"
    ∧ LogIntegrityValidator.check_timestamps_run "s"
        [{ step_id := "s", phase_name := "PREPARE", status := "EXECUTED",
           outcome := "PASS", timestamp := "2026-01-01T00:00:00Z" }]
        (some "2025-12-31T23:59:59.99999Z") 1767225599999999
      = Except.ok (["Future timestamp on PREPARE: 2026-01-01T00:00:00Z"],
          [{ index := 0, step_id := "s", phase_name := "PREPARE",
             original_timestamp := "2026-01-01T00:00:00Z", reason := "future" }]) := by
  decide

def c5Event : PhaseEvent :=
  { step_id := "s", phase_name := "PREPARE", status := "EXECUTED",
    outcome := "PASS", timestamp := "2026-01-01T00:00:00Z" }

/-- C5 witness: a 3-microsecond window divisible by three, two entries. -/
theorem c5_witness :
    (1 ≤ 2 ∧ (1767225600000000 : Int) < 1767225600000003
      ∧ (Int.ofNat 2 + 1) ∣ ((1767225600000003 : Int) - 1767225600000000)
      ∧ ((-30610224000000000 : Int) ≤ 1767225600000000)
      ∧ ((1767225600000003 : Int) < 253402300800000000)
      ∧ fromisoformat "2026-01-01T00:00:00Z" = some ⟨1767225600000000, true⟩
      ∧ (1767225600000001 : Int)
          ∈ interpolatedTimestamps 1767225600000000 1767225600000003 2
      ∧ c5Event.timestamp = isoFormatSec 1767225600000001)
    ∧ ∃ ws, LogIntegrityValidator.check_timestamps_run "s" [c5Event]
        (some "2026-01-01T00:00:00Z") 1767225600000003 = Except.ok (ws, []) :=
  ⟨⟨by decide, by decide, ⟨1, by decide⟩, by decide, by decide, by decide, by decide,
    by decide⟩,
   c5_recheck_clean_when_divisible "2026-01-01T00:00:00Z" 1767225600000000
     1767225600000003 2 1767225600000001 "s" c5Event (by decide) (by decide)
     ⟨1, by decide⟩ (by decide) (by decide) (by decide) (by decide) (by decide)⟩
